import Mathlib

/-!
Verification development for the gcli2api credential-management core.

The Python sources embedded here:
  * `src/storage/mysql_manager.py` — `MySQLCacheBackend.load_data`, `MySQLManager`
    (`store_credential`, `get_credential`, `list_credentials`,
    `get_all_credential_states`, `_get_default_state`, `_get_default_stats`);
  * `src/services/auth_service.py` — `AuthService.handle_callback`,
    `cleanup_auth_flows`, `_shutdown_flow_server`, `get_auth_flow`,
    `complete_auth_flow` (including its wait-for-callback poll loop);
  * `src/routers/auth.py` — the `POST /auth/login` handler, together with
    `UserManager.login` from `src/user_manager.py`.

Machine integers and timestamps are modelled as `Nat`; Python dicts become
association lists (`List (String × _)`) preserving insertion order; raised
exceptions on the modelled paths become explicit `Except`/result values, and
external effects (the MySQL driver, the Google OAuth API, wall-clock time,
concurrent callback arrival) become explicit parameters.
-/

namespace Gcli2Api

/-! ## Debounced cache (UnifiedCacheManager) -/

/-- Modelled from the spec: the `UnifiedCacheManager` (its file
`src/storage/cache_manager.py` is not among the sources; only
`mysql_manager.py`, which delegates to it, is) is "an in-memory mirror of the
full contents of one logical table"; `get(key, default)` "returns the
in-memory value or `default`; never touches the Store".  The in-memory table
is a Python dict; we model it as an association list preserving insertion
order. -/
def cacheGet {α : Type} (table : List (String × α)) (key : String) (dflt : α) : α :=
  (table.lookup key).getD dflt

/-- Modelled from the spec: `set(key, value)` "updates memory immediately and
marks the table dirty; returns success synchronously to the caller".  A Python
dict update replaces the value of an existing key in place and appends a fresh
key at the end. -/
def cacheSet {α : Type} : List (String × α) → String → α → List (String × α)
  | [], key, v => [(key, v)]
  | (k, w) :: rest, key, v =>
    if k == key then (k, v) :: rest else (k, w) :: cacheSet rest key v

/-- Modelled from the spec: `getAll()` "returns a snapshot copy of the full
map". -/
def cacheGetAll {α : Type} (table : List (String × α)) : List (String × α) :=
  table

/-- Modelled from the spec: `delete(key)` "removes from memory, marks
dirty". -/
def cacheDelete {α : Type} (table : List (String × α)) (key : String) :
    List (String × α) :=
  table.filter (fun p => p.1 != key)

/-! ## Credential records (mysql_manager.py) -/

/-- Health state of one credential, the `state` sub-dict of a credential entry
(`_get_default_state` lists its fields: `error_codes`, `disabled`,
`last_success`, `user_email`). -/
structure CredState where
  error_codes : List Nat
  disabled : Bool
  last_success : Nat
  user_email : Option String
deriving DecidableEq, Repr

/-- Usage statistics of one credential, the `stats` sub-dict
(`_get_default_stats`). -/
structure CredStats where
  call_timestamps : List Nat
deriving DecidableEq, Repr

/-- One row of the credentials table as written by `store_credential`:
`{"credential": ..., "state": ..., "stats": ...}`.  The secret blob is opaque
JSON; we model it as an uninterpreted string. -/
structure CredentialEntry where
  credential : String
  state : CredState
  stats : CredStats
deriving DecidableEq, Repr

/-- The in-memory credentials table held by the credentials cache manager. -/
abbrev CredTable := List (String × CredentialEntry)

/-- `MySQLManager._get_default_state`, with `time.time()` passed explicitly. -/
def _get_default_state (now : Nat) : CredState :=
  { error_codes := [], disabled := false, last_success := now, user_email := none }

/-- `MySQLManager._get_default_stats`. -/
def _get_default_stats : CredStats :=
  { call_timestamps := [] }

/-- `MySQLManager.store_credential`: reads the existing entry from the cache
(`get(filename, {})`), builds a fresh entry that takes the new secret blob but
keeps the existing `state`/`stats` (falling back to the defaults when the name
is new), and writes it back with `set`.  Returns the new table and the success
flag. -/
def store_credential (table : CredTable) (now : Nat) (filename cred : String) :
    CredTable × Bool :=
  let existing := table.lookup filename
  let entry : CredentialEntry :=
    { credential := cred
      state := match existing with
        | some e => e.state
        | none => _get_default_state now
      stats := match existing with
        | some e => e.stats
        | none => _get_default_stats }
  (cacheSet table filename entry, true)

/-- `MySQLManager.get_credential`: fetches the entry and projects its
`credential` field; a missing name yields `None`. -/
def get_credential (table : CredTable) (filename : String) : Option String :=
  match table.lookup filename with
  | some e => some e.credential
  | none => none

/-- `MySQLManager.list_credentials`: the keys of `get_all()`. -/
def list_credentials (table : CredTable) : List String :=
  (cacheGetAll table).map Prod.fst

/-- `MySQLManager.delete_credential`: delegates to the cache delete. -/
def delete_credential (table : CredTable) (filename : String) : CredTable :=
  cacheDelete table filename

/-- `MySQLManager.get_all_credential_states`: maps every entry of `get_all()`
to its `state` field (the `.get("state", default)` fallback cannot fire in the
model, where every entry carries a `state`). -/
def get_all_credential_states (table : CredTable) : List (String × CredState) :=
  (cacheGetAll table).map (fun p => (p.1, p.2.state))

/-- Replacing one record's secret blob, leaving name, state and stats
untouched; used to state that `get_all_credential_states` does not depend on
secret material. -/
def replaceCredentialBlob (table : CredTable) (key newCred : String) : CredTable :=
  table.map (fun p =>
    if p.1 == key then (p.1, { p.2 with credential := newCred }) else p)

/-! ## MySQLCacheBackend.load_data -/

/-- The payload found in the `data` column, as seen by `load_data`: a JSON
string (whose `json.loads` outcome we carry explicitly, `none` meaning the
parse raised), an already-decoded dict, or a value of any other type. -/
inductive StoredVal where
  | strVal (parsed : Option CredTable)
  | dictVal (d : CredTable)
  | otherVal
deriving DecidableEq

/-- Outcome of the underlying `SELECT data FROM ... WHERE key = ...`:
the query raised some exception, returned no row, returned a row whose
`data` is NULL, or returned a row with a payload. -/
inductive MySQLRead where
  | readError
  | noRow
  | rowNull
  | rowData (v : StoredVal)
deriving DecidableEq

/-- `MySQLCacheBackend.load_data`: any exception inside the `try` block
(including a `json.loads` failure) is caught and yields `{}`; a missing row or
NULL `data` yields `{}`; a string payload is parsed; a dict payload is
returned as-is; any other payload type is logged and yields `{}`. -/
def load_data : MySQLRead → CredTable
  | .readError => []
  | .noRow => []
  | .rowNull => []
  | .rowData (.strVal none) => []
  | .rowData (.strVal (some d)) => d
  | .rowData (.dictVal d) => d
  | .rowData .otherVal => []

/-! ## POST /auth/login (routers/auth.py + user_manager.py) -/

/-- What `UserManager.login` returns: `None` on bad credentials or a disabled
user, otherwise a dict with exactly the keys `token`, `user_id`, `role`,
`api_key`. -/
inductive LoginOutcome where
  | loginFailed
  | loginSuccess (token user_id role api_key : String)
deriving DecidableEq

/-- The Python value returned by `UserManager.login`, as an optional ordered
dict (key/value pairs in insertion order). -/
def login_return : LoginOutcome → Option (List (String × String))
  | .loginFailed => none
  | .loginSuccess t u r a =>
    some [("token", t), ("user_id", u), ("role", r), ("api_key", a)]

/-- The Python exceptions that tuple-unpacking can raise. -/
inductive PyErr where
  | typeError
  | valueError
deriving DecidableEq, Repr

/-- Python semantics of `a, b, c = value`: unpacking `None` raises
`TypeError` (not iterable); unpacking a dict iterates its keys, raising
`ValueError` unless there are exactly three of them. -/
def unpack3 : Option (List (String × String)) → Except PyErr (String × String × String)
  | none => .error .typeError
  | some d =>
    match d.map Prod.fst with
    | [a, b, c] => .ok (a, b, c)
    | _ => .error .valueError

/-- What the `POST /auth/login` handler can produce: a token response, an
HTTPException with a status code, or an uncaught Python exception. -/
inductive LoginRouteResult where
  | tokenResponse (token is_admin user_id : String)
  | httpError (status : Nat)
  | raisedException (e : PyErr)
deriving DecidableEq, Repr

/-- The `login` handler in `src/routers/auth.py`:
`token, is_admin, user_id = await user_manager.login(...)`, then
`if token:` returns the token response, else raises HTTP 401. -/
def login_route (outcome : LoginOutcome) : LoginRouteResult :=
  match unpack3 (login_return outcome) with
  | .error e => .raisedException e
  | .ok (token, is_admin, user_id) =>
    if token ≠ "" then .tokenResponse token is_admin user_id else .httpError 401

/-! ## Auth flow records (services/auth_service.py) -/

/-- One entry of `AuthService.auth_flows`, as built by `create_auth_url`.
The OAuth client object (`flow`), the thread handle and the callback URL
carry no behaviour used by these operations; the listener handle (`server`)
is modelled by `has_server` (each record holds at most one listener).
`created_at` is a timestamp in seconds. -/
structure FlowRecord where
  project_id : Option String
  user_session : Option String
  callback_port : Nat
  has_server : Bool
  code : Option String
  completed : Bool
  created_at : Nat
  auto_project_detection : Bool
  get_all_projects : Bool
deriving DecidableEq, Repr

/-- The `auth_flows` dict, keyed by the opaque `state` token. -/
abbrev AuthFlows := List (String × FlowRecord)

/-- Observable events on a flow's resources: shutting down its local HTTP
listener (`server.shutdown(); server.server_close()`) and removing the record
from `auth_flows`. -/
inductive FlowEvent where
  | shutdownListener (state : String)
  | removeFlow (state : String)
deriving DecidableEq, Repr

/-- Pointwise update of the record stored under one key of `auth_flows`
(Python mutates the dict value in place: `self.auth_flows[state][...] = ...`);
all other entries are untouched. -/
def updateFlows : AuthFlows → String → (FlowRecord → FlowRecord) → AuthFlows
  | [], _, _ => []
  | (k, w) :: rest, state, f =>
    if k = state then (k, f w) :: updateFlows rest state f
    else (k, w) :: updateFlows rest state f

/-- `AuthService.handle_callback`: when `state` is a live flow, stores the
code and marks the record completed, returning `True`; otherwise returns
`False`. -/
def handle_callback (flows : AuthFlows) (state code : String) : AuthFlows × Bool :=
  if (flows.lookup state).isSome then
    (updateFlows flows state
      (fun d => { d with code := some code, completed := true }), true)
  else (flows, false)

/-- `AuthService._shutdown_flow_server`: looks the flow up and, if it holds a
listener, shuts it down (any exception is swallowed).  Returns the emitted
events. -/
def _shutdown_flow_server (flows : AuthFlows) (state : String) : List FlowEvent :=
  match flows.lookup state with
  | some d => if d.has_server then [FlowEvent.shutdownListener state] else []
  | none => []

/-- The expiry test of `cleanup_auth_flows`: `now - created_at > 1800`.
`Nat` subtraction truncates at zero, which agrees with the Python float
comparison (a record created "in the future" is not expired either way). -/
def flowExpired (now : Nat) (d : FlowRecord) : Bool :=
  1800 < now - d.created_at

/-- The comparison used for `sorted(..., key=created_at, reverse=True)`:
a stable descending sort by `created_at` (ties keep insertion order, as in
Python's stable `sorted`). -/
def flowNewerEq (a b : String × FlowRecord) : Bool :=
  b.2.created_at ≤ a.2.created_at

/-- The states collected by the expiry pass of `cleanup_auth_flows`
(`expired = [state for state, data in ... if now - created_at > 1800]`,
in map order). -/
def expiredKeys (now : Nat) (flows : AuthFlows) : List String :=
  (flows.filter (fun p => flowExpired now p.2)).map Prod.fst

/-- The flow map after the expiry pass has deleted every expired state. -/
def remainingFlows (now : Nat) (flows : AuthFlows) : AuthFlows :=
  flows.filter (fun p => !flowExpired now p.2)

/-- `dict(sorted_flows[:10])`: the 10 newest non-expired flows by
`created_at` (stable descending sort, as Python's `sorted` with
`reverse=True`). -/
def keptFlows (now : Nat) (flows : AuthFlows) : AuthFlows :=
  ((remainingFlows now flows).mergeSort flowNewerEq).take 10

/-- The states the hard-limit pass evicts: every remaining state not among
the kept ones, in map order (`for state ... if state not in new_auth_flows`). -/
def evictedKeys (now : Nat) (flows : AuthFlows) : List String :=
  ((remainingFlows now flows).filter
    (fun p => !((keptFlows now flows).map Prod.fst).contains p.1)).map Prod.fst

/-- Events of the expiry pass: for each expired state, in order, shut its
listener down, then delete it from the map. -/
def expiryEvents (now : Nat) (flows : AuthFlows) : List FlowEvent :=
  (expiredKeys now flows).flatMap
    (fun s => _shutdown_flow_server flows s ++ [FlowEvent.removeFlow s])

/-- Events of the hard-limit pass: the eviction loop shuts down the listener
of every evicted state (looked up in the post-expiry map), then the map
assignment removes them all. -/
def evictionEvents (now : Nat) (flows : AuthFlows) : List FlowEvent :=
  (evictedKeys now flows).flatMap
    (fun s => _shutdown_flow_server (remainingFlows now flows) s)
    ++ (evictedKeys now flows).map FlowEvent.removeFlow

/-- `AuthService.cleanup_auth_flows`: first drops every flow older than 30
minutes (shutting its listener down, then deleting it); then, if more than 10
flows remain, keeps only the 10 newest by `created_at` and shuts down the
listener of every evicted flow before the map is replaced.  Returns the new
`auth_flows` together with the ordered event trace. -/
def cleanup_auth_flows (now : Nat) (flows : AuthFlows) : AuthFlows × List FlowEvent :=
  if 10 < (remainingFlows now flows).length then
    (keptFlows now flows, expiryEvents now flows ++ evictionEvents now flows)
  else (remainingFlows now flows, expiryEvents now flows)

/-- Python truthiness test `user_session and data.get("user_session") ==
user_session` (a falsy session — `None` — is modelled as `none`). -/
def usMatches (us : Option String) (d : FlowRecord) : Bool :=
  us.isSome && d.user_session == us

/-- One pass of the lookup loops in `AuthService.get_auth_flow`: the loop
returns immediately at the first record matching both the predicate and the
caller's session, and otherwise remembers (and finally returns) the first
record matching the predicate alone. -/
def scanFlowsPhase (flows : AuthFlows) (pred : FlowRecord → Bool)
    (us : Option String) : Option (String × FlowRecord) :=
  match flows.find? (fun p => pred p.2 && usMatches us p.2) with
  | some x => some x
  | none => flows.find? (fun p => pred p.2)

/-- `AuthService.get_auth_flow`: when a project id is given, first scan for
flows registered under that project id; if that yields nothing (or no project
id was given), scan for flows flagged for automatic project detection. -/
def get_auth_flow (flows : AuthFlows) (project_id user_session : Option String) :
    Option (String × FlowRecord) :=
  let byProject := match project_id with
    | some pid => scanFlowsPhase flows (fun d => d.project_id == some pid) user_session
    | none => none
  match byProject with
  | some x => some x
  | none => scanFlowsPhase flows (fun d => d.auto_project_detection) user_session

/-- The wait loop of `complete_auth_flow`, polling `flow_data.get("code")`
every 0.5 s while less than 300 s have elapsed, plus the final check after the
loop: the code value is sampled at half-second ticks 0, 1, ..., up to
`tick + fuel`. -/
def pollLoop (codeAt : Nat → Option String) : Nat → Nat → Option String
  | tick, 0 => codeAt tick
  | tick, fuel + 1 =>
    match codeAt tick with
    | some c => some c
    | none => pollLoop codeAt (tick + 1) fuel

/-- Number of half-second sleeps the wait loop can perform before the 300 s
deadline: checks happen at ticks 0..599 inside the loop and once more after
it, at tick 600. -/
def pollBudget : Nat := 600

/-- The bounded wait of `complete_auth_flow`: the first code observed at any
tick in `0..pollBudget`, or `none` on timeout. -/
def pollForCode (codeAt : Nat → Option String) : Option String :=
  pollLoop codeAt 0 pollBudget

/-- A candidate Google Cloud project as returned by `get_user_projects`
(`google_oauth_api.py` is not among the sources).  Modelled from the spec:
the flow "queries the available projects for the authenticated identity" and
may return the "candidate list"; the source reads each candidate's
`projectId` field with `.get`, so the field is optional here. -/
structure Project where
  projectId : Option String
deriving DecidableEq, Repr

/-- Modelled from the spec: the token set produced by the code exchange
("exchanges the code for tokens"); only the access token is observed by the
embedded result. -/
structure Credentials where
  access_token : String
deriving DecidableEq, Repr

/-- Outcomes of the external calls made by `complete_auth_flow`, passed in
explicitly: the evolving `code` field of the flow record (written concurrently
by `handle_callback`, sampled at poll ticks), the token exchange, the
project listing, the default-project selection strategy, API enablement and
credential persistence.  An `Except.error` models a raised exception. -/
structure CompleteEnv where
  codeAt : Nat → Option String
  exchange : String → Except String Credentials
  userProjects : List Project
  selectDefault : Option String
  enableResult : Except String Unit
  saveResult : Except String String

/-- The dict returned by `complete_auth_flow`: `success`, optional `error`,
the `requires_project_selection` marker with its candidate list, and on
success the stored filename plus the credentials payload (access token and
resolved project id). -/
structure AuthResult where
  success : Bool
  error : Option String := none
  requires_project_selection : Bool := false
  available_projects : List Project := []
  file_path : Option String := none
  cred_token : Option String := none
  cred_project_id : Option String := none
deriving DecidableEq, Repr

/-- A plain `{"success": False, "error": msg}` result. -/
def errRes (msg : String) : AuthResult :=
  { success := false, error := some msg }

/-- The first stage of `complete_auth_flow` after the lookup: when the caller
did not pass a project id and the flow is not flagged for automatic detection,
fall back to the record's own project id, failing with "Missing Project ID"
when that is absent too. -/
def resolvePinnedProject (d : FlowRecord) (project_id : Option String) :
    Except AuthResult (Option String) :=
  match project_id with
  | some p => .ok (some p)
  | none =>
    if d.auto_project_detection then .ok none
    else
      match d.project_id with
      | some p => .ok (some p)
      | none => .error (errRes "Missing Project ID")

/-- The wait stage: if the record already carries a code use it, otherwise
poll `flow_data.get("code")` with the bounded wait; on timeout return the
structured `{"success": False, "error": "Callback timeout"}` dict. -/
def awaitCode (d : FlowRecord) (env : CompleteEnv) : Except AuthResult String :=
  match (match d.code with | some c => some c | none => pollForCode env.codeAt) with
  | some c => .ok c
  | none => .error (errRes "Callback timeout")

/-- The automatic project-detection stage, entered only when the flow is
flagged for auto detection and no project id is pinned: zero candidate
projects is an error; exactly one is auto-selected; with several, the default
selection strategy decides, and when it yields nothing the result is the
non-fatal "selection required" dict carrying the candidate list. -/
def autoDetectProject (d : FlowRecord) (pid : Option String) (env : CompleteEnv) :
    Except AuthResult (Option String) :=
  if d.auto_project_detection && pid.isNone then
    match env.userProjects with
    | [] => .error (errRes "No projects found")
    | [p] => .ok p.projectId
    | _ =>
      match env.selectDefault with
      | some q => .ok (some q)
      | none => .error { success := false, error := some "Multiple projects found",
                         requires_project_selection := true,
                         available_projects := env.userProjects }
  else .ok pid

/-- The body of `complete_auth_flow` once a flow record has been located:
resolve the pinned project id, wait for the callback code, exchange it, run
automatic project detection, check a project id was obtained, enable the
required APIs and save the credentials.  Every `return` of a failure dict
becomes an `Except.error`. -/
def completeCore (d : FlowRecord) (project_id : Option String) (env : CompleteEnv) :
    Except AuthResult (String × String × Credentials) :=
  match resolvePinnedProject d project_id with
  | .error r => .error r
  | .ok pid0 =>
    match awaitCode d env with
    | .error r => .error r
    | .ok code =>
      match env.exchange code with
      | .error e => .error (errRes e)
      | .ok creds =>
        match autoDetectProject d pid0 env with
        | .error r => .error r
        | .ok pid1 =>
          match pid1 with
          | none => .error (errRes "Missing Project ID")
          | some pid =>
            match env.enableResult with
            | .error e => .error (errRes e)
            | .ok _ =>
              match env.saveResult with
              | .ok f => .ok (f, pid, creds)
              | .error e => .error (errRes e)

/-- `AuthService.complete_auth_flow`: locates the flow record, runs
`completeCore`; on success shuts the flow's listener down and deletes the
record, on any failure leaves `auth_flows` untouched.  Returns the result
dict, the new `auth_flows` and the event trace. -/
def complete_auth_flow (flows : AuthFlows) (project_id user_session : Option String)
    (env : CompleteEnv) : AuthResult × AuthFlows × List FlowEvent :=
  match get_auth_flow flows project_id user_session with
  | none => (errRes "未找到对应的认证流程", flows, [])
  | some (state, d) =>
    match completeCore d project_id env with
    | .error r => (r, flows, [])
    | .ok (f, pid, creds) =>
      ({ success := true, file_path := some f, cred_token := some creds.access_token,
         cred_project_id := some pid },
       flows.filter (fun p => p.1 != state),
       _shutdown_flow_server flows state ++ [FlowEvent.removeFlow state])

/-- Number of `shutdownListener s` events in a trace. -/
def shutdownCount (tr : List FlowEvent) (s : String) : Nat :=
  tr.count (FlowEvent.shutdownListener s)

/-- The trace contains a `shutdownListener s` event strictly before a
`removeFlow s` event. -/
def closedBeforeRemoval (tr : List FlowEvent) (s : String) : Prop :=
  ∃ t₁ t₂, tr = t₁ ++ FlowEvent.shutdownListener s :: t₂ ∧
    FlowEvent.removeFlow s ∈ t₂

/-! ## Helper lemmas about association-list lookup -/

theorem lookup_cacheSet_self {α : Type} (t : List (String × α)) (k : String) (v : α) :
    (cacheSet t k v).lookup k = some v := by
  induction t with
  | nil => simp [cacheSet, List.lookup]
  | cons p rest ih =>
    obtain ⟨k', w⟩ := p
    by_cases h : k' = k
    · subst h
      simp [cacheSet, List.lookup]
    · have h' : ¬ k = k' := fun hh => h hh.symm
      simp [cacheSet, List.lookup, beq_false_of_ne h, beq_false_of_ne h', ih]

theorem lookup_cacheSet_ne {α : Type} (t : List (String × α)) (k k' : String) (v : α)
    (h : k' ≠ k) : (cacheSet t k v).lookup k' = t.lookup k' := by
  induction t with
  | nil => simp [cacheSet, List.lookup, beq_false_of_ne h]
  | cons p rest ih =>
    obtain ⟨a, w⟩ := p
    by_cases ha : a = k
    · subst ha
      simp [cacheSet, List.lookup, beq_false_of_ne h]
    · by_cases hk : k' = a
      · subst hk
        simp [cacheSet, List.lookup, beq_false_of_ne ha]
      · simp [cacheSet, List.lookup, beq_false_of_ne ha, beq_false_of_ne hk, ih]

theorem mem_keys_of_lookup {α : Type} (t : List (String × α)) (k : String) (v : α)
    (h : t.lookup k = some v) : k ∈ t.map Prod.fst := by
  induction t with
  | nil => simp [List.lookup] at h
  | cons p rest ih =>
    obtain ⟨a, w⟩ := p
    by_cases ha : k = a
    · subst ha; simp
    · simp only [List.lookup, beq_false_of_ne ha] at h
      have := ih h
      simp only [List.map, List.mem_cons]
      exact Or.inr this

/-! ## C6–C9: credential storage -/

/-- C6: `store_credential` upserts only the secret material: when a record
with the given name already exists its health state and stats are left
unchanged, and when the name is new the health state is initialized to
`disabled := false`, an empty error-code list and `last_success := now`
(with no resolved email). -/
theorem store_credential_upsert_preserves_state (table : CredTable) (now : Nat)
    (filename cred : String) :
    (∀ e, table.lookup filename = some e →
      ((store_credential table now filename cred).1).lookup filename =
        some { credential := cred, state := e.state, stats := e.stats }) ∧
    (table.lookup filename = none →
      ((store_credential table now filename cred).1).lookup filename =
        some { credential := cred,
               state := { error_codes := [], disabled := false,
                          last_success := now, user_email := none },
               stats := { call_timestamps := [] } }) := by
  constructor
  · intro e he
    simp [store_credential, he, lookup_cacheSet_self]
  · intro he
    simp [store_credential, he, lookup_cacheSet_self, _get_default_state,
      _get_default_stats]

/-- Witness for C6 at a concrete table: overwriting an existing record keeps
its state and stats, and a fresh name gets the default state. -/
theorem store_credential_upsert_preserves_state_witness :
    ((store_credential
        [("f.json", { credential := "OLD",
                      state := { error_codes := [429], disabled := true,
                                 last_success := 7, user_email := some "e@x" },
                      stats := { call_timestamps := [3, 4] } })]
        42 "f.json" "NEW").1).lookup "f.json" =
      some { credential := "NEW",
             state := { error_codes := [429], disabled := true,
                        last_success := 7, user_email := some "e@x" },
             stats := { call_timestamps := [3, 4] } } ∧
    ((store_credential [] 42 "g.json" "BLOB").1).lookup "g.json" =
      some { credential := "BLOB",
             state := { error_codes := [], disabled := false,
                        last_success := 42, user_email := none },
             stats := { call_timestamps := [] } } := by
  constructor
  · exact (store_credential_upsert_preserves_state
      [("f.json", { credential := "OLD",
                    state := { error_codes := [429], disabled := true,
                               last_success := 7, user_email := some "e@x" },
                    stats := { call_timestamps := [3, 4] } })]
      42 "f.json" "NEW").1 _ rfl
  · exact (store_credential_upsert_preserves_state [] 42 "g.json" "BLOB").2 rfl

/-- C7: round-trip — a successful `store_credential(name, blob)` followed
immediately by `get_credential(name)` returns the blob unchanged, and the
name appears in `list_credentials`. -/
theorem store_credential_get_roundtrip (table : CredTable) (now : Nat)
    (filename cred : String) :
    (store_credential table now filename cred).2 = true ∧
    get_credential (store_credential table now filename cred).1 filename = some cred ∧
    filename ∈ list_credentials (store_credential table now filename cred).1 := by
  refine ⟨rfl, ?_, ?_⟩
  · simp [get_credential, store_credential, lookup_cacheSet_self]
  · exact mem_keys_of_lookup _ _ _ (lookup_cacheSet_self table filename _)

/-- C8: `get_all_credential_states` never exposes secret material — its
output is unchanged when any record's secret blob is replaced by another. -/
theorem get_all_credential_states_excludes_secrets (table : CredTable)
    (key newCred : String) :
    get_all_credential_states (replaceCredentialBlob table key newCred) =
      get_all_credential_states table := by
  unfold get_all_credential_states replaceCredentialBlob cacheGetAll
  rw [List.map_map]
  refine List.map_congr_left ?_
  intro p _
  by_cases h : p.1 == key <;> simp [Function.comp, h]

/-- C9: `load_data` returns an empty map — rather than raising — when the
underlying read raises any exception, when the row is missing, and when the
row's `data` column is NULL. -/
theorem load_data_read_failure_empty :
    load_data .readError = [] ∧ load_data .noRow = [] ∧ load_data .rowNull = [] := by
  exact ⟨rfl, rfl, rfl⟩

/-! ## C10: the login route -/

/-- C10: the `POST /auth/login` handler unpacks `user_manager.login`'s result
into three variables, but that result is either `None` (so unpacking raises
`TypeError`) or a four-key dict (so unpacking raises `ValueError`); the
handler therefore never returns a token response and every login attempt ends
in a raised exception. -/
theorem login_route_always_raises :
    (∀ o : LoginOutcome, ∀ t i u, login_route o ≠ .tokenResponse t i u) ∧
    login_route .loginFailed = .raisedException .typeError ∧
    ∀ t u r a, login_route (.loginSuccess t u r a) = .raisedException .valueError := by
  refine ⟨?_, rfl, fun t u r a => rfl⟩
  intro o t i u
  cases o <;> simp [login_route, unpack3, login_return]

/-! ## C2: handle_callback -/

theorem lookup_update_self (flows : AuthFlows) (state : String)
    (f : FlowRecord → FlowRecord) (r : FlowRecord) (h : flows.lookup state = some r) :
    (updateFlows flows state f).lookup state = some (f r) := by
  induction flows with
  | nil => simp [List.lookup] at h
  | cons p rest ih =>
    obtain ⟨k, w⟩ := p
    by_cases hk : k = state
    · subst hk
      simp only [List.lookup, beq_self_eq_true] at h
      obtain rfl : w = r := by simpa using h
      simp [updateFlows, List.lookup]
    · have hs : ¬ state = k := fun hh => hk hh.symm
      simp only [List.lookup, beq_false_of_ne hs] at h
      simp [updateFlows, hk, List.lookup, beq_false_of_ne hs, ih h]

theorem lookup_update_ne (flows : AuthFlows) (state s : String)
    (f : FlowRecord → FlowRecord) (h : s ≠ state) :
    (updateFlows flows state f).lookup s = flows.lookup s := by
  induction flows with
  | nil => simp [updateFlows]
  | cons p rest ih =>
    obtain ⟨k, w⟩ := p
    by_cases hk : k = state
    · subst hk
      have hs : ¬ s = k := h
      simp [updateFlows, List.lookup, beq_false_of_ne hs, ih]
    · by_cases hsk : s = k
      · subst hsk
        simp [updateFlows, hk, List.lookup]
      · simp [updateFlows, hk, List.lookup, beq_false_of_ne hsk, ih]

/-- C2: `handle_callback` rejects (returns `False` and changes nothing) when
the state is not a live flow; when it is, it stores the code on that flow
record, marks it completed and accepts (returns `True`), leaving every other
flow record untouched. -/
theorem handle_callback_spec (flows : AuthFlows) (state code : String) :
    (flows.lookup state = none → handle_callback flows state code = (flows, false)) ∧
    (∀ r, flows.lookup state = some r →
      (handle_callback flows state code).2 = true ∧
      (handle_callback flows state code).1.lookup state =
        some { r with code := some code, completed := true } ∧
      ∀ s, s ≠ state → (handle_callback flows state code).1.lookup s =
        flows.lookup s) := by
  constructor
  · intro h
    simp [handle_callback, h]
  · intro r h
    refine ⟨?_, ?_, ?_⟩
    · simp [handle_callback, h]
    · simp only [handle_callback, h, Option.isSome_some, if_true]
      exact lookup_update_self flows state
        (fun d => { d with code := some code, completed := true }) r h
    · intro s hs
      simp only [handle_callback, h, Option.isSome_some, if_true]
      exact lookup_update_ne flows state s
        (fun d => { d with code := some code, completed := true }) hs

/-- Witness for C2 at a concrete flow map: an unknown state is rejected with
the map unchanged; a live state is accepted, gets the code stored and the
record completed, and a sibling record is untouched. -/
theorem handle_callback_spec_witness :
    handle_callback
        [("st", (⟨none, none, 8080, true, none, false, 0, true, false⟩ : FlowRecord))]
        "zz" "code123" =
      ([("st", ⟨none, none, 8080, true, none, false, 0, true, false⟩)], false) ∧
    (handle_callback
        [("st", (⟨none, none, 8080, true, none, false, 0, true, false⟩ : FlowRecord)),
         ("other", ⟨some "p", none, 8081, true, none, false, 5, false, false⟩)]
        "st" "code123").2 = true ∧
    (handle_callback
        [("st", (⟨none, none, 8080, true, none, false, 0, true, false⟩ : FlowRecord)),
         ("other", ⟨some "p", none, 8081, true, none, false, 5, false, false⟩)]
        "st" "code123").1.lookup "st" =
      some ⟨none, none, 8080, true, some "code123", true, 0, true, false⟩ ∧
    (handle_callback
        [("st", (⟨none, none, 8080, true, none, false, 0, true, false⟩ : FlowRecord)),
         ("other", ⟨some "p", none, 8081, true, none, false, 5, false, false⟩)]
        "st" "code123").1.lookup "other" =
      some ⟨some "p", none, 8081, true, none, false, 5, false, false⟩ := by
  refine ⟨?_, ?_, ?_, ?_⟩
  · exact (handle_callback_spec
      [("st", ⟨none, none, 8080, true, none, false, 0, true, false⟩)] "zz" "code123").1
      rfl
  · exact ((handle_callback_spec
      [("st", ⟨none, none, 8080, true, none, false, 0, true, false⟩),
       ("other", ⟨some "p", none, 8081, true, none, false, 5, false, false⟩)]
      "st" "code123").2 _ rfl).1
  · exact ((handle_callback_spec
      [("st", ⟨none, none, 8080, true, none, false, 0, true, false⟩),
       ("other", ⟨some "p", none, 8081, true, none, false, 5, false, false⟩)]
      "st" "code123").2 _ rfl).2.1
  · have h := ((handle_callback_spec
      [("st", ⟨none, none, 8080, true, none, false, 0, true, false⟩),
       ("other", ⟨some "p", none, 8081, true, none, false, 5, false, false⟩)]
      "st" "code123").2 _ rfl).2.2 "other" (by decide)
    simpa using h

/-! ## C3: the bounded wait for the callback -/

theorem pollLoop_eq_none (codeAt : Nat → Option String) :
    ∀ fuel tick, (∀ j, tick ≤ j → j ≤ tick + fuel → codeAt j = none) →
      pollLoop codeAt tick fuel = none := by
  intro fuel
  induction fuel with
  | zero =>
    intro tick h
    have h0 := h tick le_rfl (by omega)
    simp [pollLoop, h0]
  | succ n ih =>
    intro tick h
    have h0 := h tick le_rfl (by omega)
    simp only [pollLoop, h0]
    exact ih (tick + 1) (fun j hj1 hj2 => h j (by omega) (by omega))

theorem pollLoop_first_hit (codeAt : Nat → Option String) :
    ∀ fuel tick k c, tick ≤ k → k ≤ tick + fuel →
      (∀ j, tick ≤ j → j < k → codeAt j = none) → codeAt k = some c →
      pollLoop codeAt tick fuel = some c := by
  intro fuel
  induction fuel with
  | zero =>
    intro tick k c h1 h2 h3 hk
    have he : k = tick := by omega
    subst he
    simp [pollLoop, hk]
  | succ n ih =>
    intro tick k c h1 h2 h3 hk
    by_cases he : tick = k
    · subst he
      simp [pollLoop, hk]
    · have h0 : codeAt tick = none := h3 tick le_rfl (by omega)
      simp only [pollLoop, h0]
      exact ih (tick + 1) k c (by omega) (by omega)
        (fun j hj1 hj2 => h3 j (by omega) hj2) hk

/-- C3: a located flow whose code has not arrived is awaited with a bounded
poll — checked at every half-second tick up to the 300 s budget — and if no
code arrives at any tick within the budget, `complete_auth_flow` returns the
structured `{"success": False, "error": "Callback timeout"}` result (no
exception: the embedding is a total function, and the flow record is not
destroyed); conversely a code arriving at any tick within the budget is picked
up by the poll, so the call does not fail immediately. -/
theorem complete_auth_flow_callback_timeout
    (flows : AuthFlows) (project_id user_session : Option String) (env : CompleteEnv)
    (state : String) (d : FlowRecord)
    (hfind : get_auth_flow flows project_id user_session = some (state, d))
    (hcode : d.code = none)
    (hpre : ∃ pid0, resolvePinnedProject d project_id = .ok pid0) :
    ((∀ k, k ≤ pollBudget → env.codeAt k = none) →
      (complete_auth_flow flows project_id user_session env).1 =
        errRes "Callback timeout" ∧
      (complete_auth_flow flows project_id user_session env).1.success = false ∧
      (complete_auth_flow flows project_id user_session env).2.1 = flows) ∧
    (∀ k c, k ≤ pollBudget → (∀ j, j < k → env.codeAt j = none) →
      env.codeAt k = some c → pollForCode env.codeAt = some c) := by
  obtain ⟨pid0, hpid⟩ := hpre
  constructor
  · intro hnone
    have hpoll : pollForCode env.codeAt = none :=
      pollLoop_eq_none env.codeAt pollBudget 0
        (fun j _ hj2 => hnone j (by simpa using hj2))
    have hawait : awaitCode d env = .error (errRes "Callback timeout") := by
      simp [awaitCode, hcode, hpoll]
    have hcore : completeCore d project_id env = .error (errRes "Callback timeout") := by
      simp [completeCore, hpid, hawait]
    refine ⟨?_, ?_, ?_⟩ <;> simp [complete_auth_flow, hfind, hcore, errRes]
  · intro k c hk hlt hc
    exact pollLoop_first_hit env.codeAt pollBudget 0 k c (Nat.zero_le k)
      (by simpa using hk) (fun j _ hj => hlt j hj) hc

/-- Witness for C3: with one auto-detection flow, no code on the record and a
callback that never arrives, the call returns the "Callback timeout" failure
and leaves the flow map unchanged. -/
theorem complete_auth_flow_callback_timeout_witness :
    (complete_auth_flow
        [("st", (⟨none, none, 8080, true, none, false, 0, true, false⟩ : FlowRecord))]
        none none
        { codeAt := fun _ => none, exchange := fun _ => .ok ⟨"tok"⟩,
          userProjects := [], selectDefault := none,
          enableResult := .ok (), saveResult := .ok "f.json" }).1 =
      errRes "Callback timeout" ∧
    (complete_auth_flow
        [("st", (⟨none, none, 8080, true, none, false, 0, true, false⟩ : FlowRecord))]
        none none
        { codeAt := fun _ => none, exchange := fun _ => .ok ⟨"tok"⟩,
          userProjects := [], selectDefault := none,
          enableResult := .ok (), saveResult := .ok "f.json" }).2.1 =
      [("st", ⟨none, none, 8080, true, none, false, 0, true, false⟩)] := by
  have h := (complete_auth_flow_callback_timeout
    [("st", ⟨none, none, 8080, true, none, false, 0, true, false⟩)] none none
    { codeAt := fun _ => none, exchange := fun _ => .ok ⟨"tok"⟩,
      userProjects := [], selectDefault := none,
      enableResult := .ok (), saveResult := .ok "f.json" }
    "st" ⟨none, none, 8080, true, none, false, 0, true, false⟩
    rfl rfl ⟨none, rfl⟩).1 (fun k _ => rfl)
  exact ⟨h.1, h.2.2⟩

/-! ## C1: automatic project detection in complete_auth_flow -/

/-- C1: for a completion whose located flow has automatic project detection
enabled and no pinned project id, after the code is exchanged for tokens —
zero available projects yields a failure; exactly one project is auto-selected
and the flow proceeds to a successful completion carrying that project id;
with several projects and a default-selection strategy that yields none, the
result is the non-fatal "selection required" outcome
(`requires_project_selection = true`) carrying the full candidate list. -/
theorem complete_auth_flow_auto_project_selection
    (flows : AuthFlows) (user_session : Option String) (env : CompleteEnv)
    (state : String) (d : FlowRecord) (c : String) (creds : Credentials)
    (hfind : get_auth_flow flows none user_session = some (state, d))
    (hauto : d.auto_project_detection = true)
    (hcode : d.code = some c)
    (hex : env.exchange c = .ok creds) :
    (env.userProjects = [] →
      (complete_auth_flow flows none user_session env).1 =
        errRes "No projects found") ∧
    (∀ p q f, env.userProjects = [p] → p.projectId = some q →
      env.enableResult = .ok () → env.saveResult = .ok f →
      (complete_auth_flow flows none user_session env).1 =
        { success := true, file_path := some f,
          cred_token := some creds.access_token, cred_project_id := some q }) ∧
    (1 < env.userProjects.length → env.selectDefault = none →
      (complete_auth_flow flows none user_session env).1 =
        { success := false, error := some "Multiple projects found",
          requires_project_selection := true,
          available_projects := env.userProjects }) := by
  have hpid : resolvePinnedProject d none = .ok none := by
    simp [resolvePinnedProject, hauto]
  have hawait : awaitCode d env = .ok c := by
    simp [awaitCode, hcode]
  refine ⟨?_, ?_, ?_⟩
  · intro hup
    have hdet : autoDetectProject d none env = .error (errRes "No projects found") := by
      simp [autoDetectProject, hauto, hup]
    have hcore : completeCore d none env = .error (errRes "No projects found") := by
      simp [completeCore, hpid, hawait, hex, hdet]
    simp [complete_auth_flow, hfind, hcore]
  · intro p q f hup hq hen hsv
    have hdet : autoDetectProject d none env = .ok (some q) := by
      simp [autoDetectProject, hauto, hup, hq]
    have hcore : completeCore d none env = .ok (f, q, creds) := by
      simp [completeCore, hpid, hawait, hex, hdet, hen, hsv]
    simp [complete_auth_flow, hfind, hcore]
  · intro hlen hsel
    rcases hups : env.userProjects with _ | ⟨x, _ | ⟨y, t⟩⟩
    · rw [hups] at hlen; simp at hlen
    · rw [hups] at hlen; simp at hlen
    · have hdet : autoDetectProject d none env =
          .error { success := false, error := some "Multiple projects found",
                   requires_project_selection := true,
                   available_projects := env.userProjects } := by
        rw [autoDetectProject]
        simp only [hauto, Option.isNone_none, Bool.and_self, if_true, hups, hsel]
      have hcore : completeCore d none env =
          .error { success := false, error := some "Multiple projects found",
                   requires_project_selection := true,
                   available_projects := env.userProjects } := by
        simp [completeCore, hpid, hawait, hex, hdet]
      simp [complete_auth_flow, hfind, hcore, hups]

/-- Witness for C1: with exactly one candidate project the flow auto-selects
it and succeeds; with two candidates and no default selection the result is
the "selection required" outcome carrying both candidates. -/
theorem complete_auth_flow_auto_project_selection_witness :
    (complete_auth_flow
        [("st", (⟨none, none, 8080, true, some "c", false, 0, true, false⟩ : FlowRecord))]
        none none
        { codeAt := fun _ => none, exchange := fun _ => .ok ⟨"tok"⟩,
          userProjects := [⟨some "proj1"⟩], selectDefault := none,
          enableResult := .ok (), saveResult := .ok "proj1-1.json" }).1 =
      { success := true, file_path := some "proj1-1.json",
        cred_token := some "tok", cred_project_id := some "proj1" } ∧
    (complete_auth_flow
        [("st", (⟨none, none, 8080, true, some "c", false, 0, true, false⟩ : FlowRecord))]
        none none
        { codeAt := fun _ => none, exchange := fun _ => .ok ⟨"tok"⟩,
          userProjects := [⟨some "p1"⟩, ⟨some "p2"⟩], selectDefault := none,
          enableResult := .ok (), saveResult := .ok "x.json" }).1 =
      { success := false, error := some "Multiple projects found",
        requires_project_selection := true,
        available_projects := [⟨some "p1"⟩, ⟨some "p2"⟩] } := by
  constructor
  · exact (complete_auth_flow_auto_project_selection
      [("st", ⟨none, none, 8080, true, some "c", false, 0, true, false⟩)] none
      { codeAt := fun _ => none, exchange := fun _ => .ok ⟨"tok"⟩,
        userProjects := [⟨some "proj1"⟩], selectDefault := none,
        enableResult := .ok (), saveResult := .ok "proj1-1.json" }
      "st" ⟨none, none, 8080, true, some "c", false, 0, true, false⟩ "c" ⟨"tok"⟩
      rfl rfl rfl rfl).2.1 ⟨some "proj1"⟩ "proj1" "proj1-1.json" rfl rfl rfl rfl
  · exact (complete_auth_flow_auto_project_selection
      [("st", ⟨none, none, 8080, true, some "c", false, 0, true, false⟩)] none
      { codeAt := fun _ => none, exchange := fun _ => .ok ⟨"tok"⟩,
        userProjects := [⟨some "p1"⟩, ⟨some "p2"⟩], selectDefault := none,
        enableResult := .ok (), saveResult := .ok "x.json" }
      "st" ⟨none, none, 8080, true, some "c", false, 0, true, false⟩ "c" ⟨"tok"⟩
      rfl rfl rfl rfl).2.2 (by decide) rfl

/-! ## C4: cleanup_auth_flows — expiry and oldest-first eviction -/

theorem flowNewerEq_trans (a b c : String × FlowRecord)
    (hab : flowNewerEq a b = true) (hbc : flowNewerEq b c = true) :
    flowNewerEq a c = true := by
  simp only [flowNewerEq, decide_eq_true_eq] at *
  omega

theorem flowNewerEq_total (a b : String × FlowRecord) :
    (flowNewerEq a b || flowNewerEq b a) = true := by
  simp only [flowNewerEq, Bool.or_eq_true, decide_eq_true_eq]
  omega

/-- C4: after any run of `cleanup_auth_flows`, no flow record older than 1800
seconds (by `created_at`) remains; and whenever the number of non-expired
flows exceeds the hard limit (10), exactly the 10 most recently created ones
survive — every evicted non-expired record is no newer than any survivor. -/
theorem cleanup_auth_flows_expiry_and_eviction (now : Nat) (flows : AuthFlows) :
    (∀ p ∈ (cleanup_auth_flows now flows).1, now - p.2.created_at ≤ 1800) ∧
    (10 < (remainingFlows now flows).length →
      (cleanup_auth_flows now flows).1.length = 10 ∧
      ∀ p ∈ (cleanup_auth_flows now flows).1,
        ∀ q ∈ remainingFlows now flows,
          q ∉ (cleanup_auth_flows now flows).1 → q.2.created_at ≤ p.2.created_at) := by
  have hfst : (cleanup_auth_flows now flows).1 =
      if 10 < (remainingFlows now flows).length then keptFlows now flows
      else remainingFlows now flows := by
    simp only [cleanup_auth_flows, apply_ite Prod.fst]
  have hmem_rem : ∀ p, p ∈ remainingFlows now flows →
      now - p.2.created_at ≤ 1800 := by
    intro p hp
    have := (List.mem_filter.mp hp).2
    simp only [flowExpired, Bool.not_eq_eq_eq_not, Bool.not_true, decide_eq_false_iff_not,
      not_lt] at this
    omega
  by_cases htrim : 10 < (remainingFlows now flows).length
  · rw [hfst, if_pos htrim]
    have hperm :
        ((remainingFlows now flows).mergeSort flowNewerEq).Perm
          (remainingFlows now flows) :=
      List.mergeSort_perm _ _
    constructor
    · intro p hp
      exact hmem_rem p (hperm.mem_iff.mp (List.mem_of_mem_take hp))
    · intro _
      constructor
      · rw [keptFlows, List.length_take, hperm.length_eq]
        omega
      · intro p hp q hq hqn
        have hsorted := List.sorted_mergeSort flowNewerEq_trans flowNewerEq_total
          (remainingFlows now flows)
        rw [← List.take_append_drop 10
          ((remainingFlows now flows).mergeSort flowNewerEq)] at hsorted
        obtain ⟨-, -, hcross⟩ := List.pairwise_append.mp hsorted
        have hq' : q ∈ ((remainingFlows now flows).mergeSort flowNewerEq).drop 10 := by
          have hq2 := hperm.mem_iff.mpr hq
          rw [← List.take_append_drop 10
            ((remainingFlows now flows).mergeSort flowNewerEq)] at hq2
          rcases List.mem_append.mp hq2 with h | h
          · exact absurd h hqn
          · exact h
        have := hcross p hp q hq'
        simpa [flowNewerEq] using this
  · rw [hfst, if_neg htrim]
    exact ⟨hmem_rem, fun h => absurd h htrim⟩

/-- Witness for C4 at a concrete map of 11 non-expired flows: the hard-limit
branch fires and exactly 10 records survive. -/
theorem cleanup_auth_flows_expiry_and_eviction_witness :
    (cleanup_auth_flows 2000
      [("s0", (⟨none, none, 8080, true, none, false, 1000, true, false⟩ : FlowRecord)),
       ("s1", ⟨none, none, 8080, true, none, false, 1001, true, false⟩),
       ("s2", ⟨none, none, 8080, true, none, false, 1002, true, false⟩),
       ("s3", ⟨none, none, 8080, true, none, false, 1003, true, false⟩),
       ("s4", ⟨none, none, 8080, true, none, false, 1004, true, false⟩),
       ("s5", ⟨none, none, 8080, true, none, false, 1005, true, false⟩),
       ("s6", ⟨none, none, 8080, true, none, false, 1006, true, false⟩),
       ("s7", ⟨none, none, 8080, true, none, false, 1007, true, false⟩),
       ("s8", ⟨none, none, 8080, true, none, false, 1008, true, false⟩),
       ("s9", ⟨none, none, 8080, true, none, false, 1009, true, false⟩),
       ("s10", ⟨none, none, 8080, true, none, false, 1010, true, false⟩)]).1.length
      = 10 := by
  exact ((cleanup_auth_flows_expiry_and_eviction 2000
    [("s0", ⟨none, none, 8080, true, none, false, 1000, true, false⟩),
     ("s1", ⟨none, none, 8080, true, none, false, 1001, true, false⟩),
     ("s2", ⟨none, none, 8080, true, none, false, 1002, true, false⟩),
     ("s3", ⟨none, none, 8080, true, none, false, 1003, true, false⟩),
     ("s4", ⟨none, none, 8080, true, none, false, 1004, true, false⟩),
     ("s5", ⟨none, none, 8080, true, none, false, 1005, true, false⟩),
     ("s6", ⟨none, none, 8080, true, none, false, 1006, true, false⟩),
     ("s7", ⟨none, none, 8080, true, none, false, 1007, true, false⟩),
     ("s8", ⟨none, none, 8080, true, none, false, 1008, true, false⟩),
     ("s9", ⟨none, none, 8080, true, none, false, 1009, true, false⟩),
     ("s10", ⟨none, none, 8080, true, none, false, 1010, true, false⟩)]).2
    (by decide)).1

/-! ## C5: listeners are shut down exactly once, before record removal -/

theorem lookup_of_mem_nodup (flows : AuthFlows) (k : String) (v : FlowRecord)
    (hnd : (flows.map Prod.fst).Nodup) (hm : (k, v) ∈ flows) :
    flows.lookup k = some v := by
  induction flows with
  | nil => cases hm
  | cons p rest ih =>
    obtain ⟨a, w⟩ := p
    simp only [List.map_cons, List.nodup_cons] at hnd
    rcases List.mem_cons.mp hm with he | hm'
    · cases he
      simp [List.lookup]
    · have hk : ¬ k = a := by
        rintro rfl
        exact hnd.1 (List.mem_map.mpr ⟨(k, v), hm', rfl⟩)
      simp only [List.lookup, beq_false_of_ne hk]
      exact ih hnd.2 hm'

theorem count_flatMap_zero {α : Type} (l : List α) (f : α → List FlowEvent)
    (e : FlowEvent) (h : ∀ x ∈ l, (f x).count e = 0) :
    (l.flatMap f).count e = 0 := by
  induction l with
  | nil => simp
  | cons a rest ih =>
    simp only [List.flatMap_cons, List.count_append]
    rw [h a (List.mem_cons_self a rest),
      ih (fun x hx => h x (List.mem_cons_of_mem a hx))]

theorem count_flatMap_one {α : Type} [DecidableEq α] (l : List α)
    (f : α → List FlowEvent) (e : FlowEvent) (s : α) (hmem : s ∈ l) (hnd : l.Nodup)
    (hs : (f s).count e = 1) (ho : ∀ x ∈ l, x ≠ s → (f x).count e = 0) :
    (l.flatMap f).count e = 1 := by
  induction l with
  | nil => cases hmem
  | cons a rest ih =>
    simp only [List.flatMap_cons, List.count_append]
    simp only [List.nodup_cons] at hnd
    rcases List.mem_cons.mp hmem with rfl | hmem'
    · have h0 : (rest.flatMap f).count e = 0 :=
        count_flatMap_zero rest f e (fun x hx =>
          ho x (List.mem_cons_of_mem _ hx) (by rintro rfl; exact hnd.1 hx))
      rw [hs, h0]
    · have ha : (f a).count e = 0 :=
        ho a (List.mem_cons_self a rest) (by rintro rfl; exact hnd.1 hmem')
      rw [ha, ih hmem' hnd.2
        (fun x hx hxs => ho x (List.mem_cons_of_mem a hx) hxs)]

theorem count_remove_map (l : List String) (s : String) :
    (l.map FlowEvent.removeFlow).count (FlowEvent.shutdownListener s) = 0 := by
  induction l with
  | nil => simp
  | cons a rest ih => simp [List.count_cons, ih]

theorem shutdown_server_count_self (flows : AuthFlows) (s : String) (d : FlowRecord)
    (hl : flows.lookup s = some d) (hs : d.has_server = true) :
    (_shutdown_flow_server flows s).count (FlowEvent.shutdownListener s) = 1 := by
  simp [_shutdown_flow_server, hl, hs]

theorem shutdown_server_count_ne (flows : AuthFlows) (x s : String) (hx : x ≠ s) :
    (_shutdown_flow_server flows x).count (FlowEvent.shutdownListener s) = 0 := by
  unfold _shutdown_flow_server
  cases h : flows.lookup x with
  | none => simp
  | some d =>
    by_cases hd : d.has_server <;> simp [hd, List.count_cons, hx]

theorem scanFlowsPhase_mem (flows : AuthFlows) (pred : FlowRecord → Bool)
    (us : Option String) (x : String × FlowRecord)
    (h : scanFlowsPhase flows pred us = some x) : x ∈ flows := by
  unfold scanFlowsPhase at h
  cases hf : flows.find? (fun p => pred p.2 && usMatches us p.2) with
  | some y =>
    rw [hf] at h
    cases h
    exact List.mem_of_find?_eq_some hf
  | none =>
    rw [hf] at h
    exact List.mem_of_find?_eq_some h

theorem get_auth_flow_mem (flows : AuthFlows) (project_id user_session : Option String)
    (x : String × FlowRecord) (h : get_auth_flow flows project_id user_session = some x) :
    x ∈ flows := by
  rcases project_id with _ | pid
  · simp only [get_auth_flow] at h
    exact scanFlowsPhase_mem _ _ _ _ h
  · simp only [get_auth_flow] at h
    cases hb : scanFlowsPhase flows (fun d => d.project_id == some pid) user_session with
    | some y =>
      rw [hb] at h
      cases h
      exact scanFlowsPhase_mem _ _ _ _ hb
    | none =>
      rw [hb] at h
      exact scanFlowsPhase_mem _ _ _ _ h

theorem key_filter_disjoint (flows : AuthFlows) (P : String × FlowRecord → Bool)
    (hnd : (flows.map Prod.fst).Nodup) (s : String)
    (h1 : s ∈ (flows.filter P).map Prod.fst)
    (h2 : s ∈ (flows.filter (fun p => !P p)).map Prod.fst) : False := by
  obtain ⟨p1, hp1, he1⟩ := List.mem_map.mp h1
  obtain ⟨p2, hp2, he2⟩ := List.mem_map.mp h2
  have hm1 := (List.mem_filter.mp hp1).1
  have hP1 := (List.mem_filter.mp hp1).2
  have hm2 := (List.mem_filter.mp hp2).1
  have hP2 := (List.mem_filter.mp hp2).2
  have l1 : flows.lookup p1.1 = some p1.2 :=
    lookup_of_mem_nodup flows p1.1 p1.2 hnd (by simpa using hm1)
  have l2 : flows.lookup p2.1 = some p2.2 :=
    lookup_of_mem_nodup flows p2.1 p2.2 hnd (by simpa using hm2)
  rw [he2, ← he1, l1] at l2
  have hval : p1.2 = p2.2 := Option.some.inj l2
  have hpp : p2 = p1 := Prod.ext (he2.trans he1.symm) hval.symm
  rw [hpp, hP1] at hP2
  simp at hP2

theorem closedBeforeRemoval_extend (a b tr : List FlowEvent) (s : String)
    (h : closedBeforeRemoval tr s) : closedBeforeRemoval (a ++ tr ++ b) s := by
  obtain ⟨t₁, t₂, rfl, hm⟩ := h
  exact ⟨a ++ t₁, t₂ ++ b, by simp, List.mem_append_left _ hm⟩

theorem cleanup_destroyed_key_shutdown (now : Nat) (flows : AuthFlows)
    (hnd : (flows.map Prod.fst).Nodup)
    (hsrv : ∀ p ∈ flows, p.2.has_server = true) (s : String)
    (hin : s ∈ flows.map Prod.fst)
    (hout : s ∉ (cleanup_auth_flows now flows).1.map Prod.fst) :
    shutdownCount (cleanup_auth_flows now flows).2 s = 1 ∧
    closedBeforeRemoval (cleanup_auth_flows now flows).2 s := by
  have hndR : ((remainingFlows now flows).map Prod.fst).Nodup :=
    hnd.sublist ((List.filter_sublist flows).map Prod.fst)
  have hndE : (expiredKeys now flows).Nodup :=
    hnd.sublist ((List.filter_sublist flows).map Prod.fst)
  have hndEv : (evictedKeys now flows).Nodup :=
    hndR.sublist ((List.filter_sublist _).map Prod.fst)
  have hsndIf : (cleanup_auth_flows now flows).2 =
      expiryEvents now flows ++
        (if 10 < (remainingFlows now flows).length then evictionEvents now flows
         else []) := by
    by_cases htrim : 10 < (remainingFlows now flows).length <;>
      simp [cleanup_auth_flows, htrim]
  have hdest : s ∈ expiredKeys now flows ∨
      (10 < (remainingFlows now flows).length ∧ s ∈ evictedKeys now flows) := by
    obtain ⟨p, hp, rfl⟩ := List.mem_map.mp hin
    by_cases hexp : flowExpired now p.2
    · left
      exact List.mem_map.mpr ⟨p, List.mem_filter.mpr ⟨hp, by simpa using hexp⟩, rfl⟩
    · have hpR : p ∈ remainingFlows now flows :=
        List.mem_filter.mpr ⟨hp, by simpa using hexp⟩
      by_cases htrim : 10 < (remainingFlows now flows).length
      · by_cases hc : ((keptFlows now flows).map Prod.fst).contains p.1
        · exfalso
          apply hout
          have hres : (cleanup_auth_flows now flows).1 = keptFlows now flows := by
            simp [cleanup_auth_flows, htrim]
          rw [hres]
          simpa using hc
        · right
          exact ⟨htrim, List.mem_map.mpr
            ⟨p, List.mem_filter.mpr ⟨hpR, by simpa using hc⟩, rfl⟩⟩
      · exfalso
        apply hout
        have hres : (cleanup_auth_flows now flows).1 = remainingFlows now flows := by
          simp [cleanup_auth_flows, htrim]
        rw [hres]
        exact List.mem_map.mpr ⟨p, hpR, rfl⟩
  rcases hdest with hsE | ⟨htrim, hsEv⟩
  · obtain ⟨p, hpE, rfl⟩ := List.mem_map.mp hsE
    have hpf : p ∈ flows := (List.mem_filter.mp hpE).1
    have hlook : flows.lookup p.1 = some p.2 :=
      lookup_of_mem_nodup flows p.1 p.2 hnd (by simpa using hpf)
    have hserv : p.2.has_server = true := hsrv p hpf
    have hfs : _shutdown_flow_server flows p.1 = [FlowEvent.shutdownListener p.1] := by
      simp [_shutdown_flow_server, hlook, hserv]
    have hcntE : (expiryEvents now flows).count (FlowEvent.shutdownListener p.1) = 1 := by
      apply count_flatMap_one _ _ _ p.1 hsE hndE
      · simp [List.count_append, hfs, List.count_cons]
      · intro x hx hxs
        simp [List.count_append, shutdown_server_count_ne flows x p.1 hxs,
          List.count_cons]
    have hcntEv : (evictionEvents now flows).count (FlowEvent.shutdownListener p.1) = 0 := by
      unfold evictionEvents
      rw [List.count_append]
      have h1 : ((evictedKeys now flows).flatMap
          (fun x => _shutdown_flow_server (remainingFlows now flows) x)).count
            (FlowEvent.shutdownListener p.1) = 0 := by
        apply count_flatMap_zero
        intro x hx
        apply shutdown_server_count_ne
        rintro rfl
        have hxR : p.1 ∈ (remainingFlows now flows).map Prod.fst := by
          obtain ⟨q, hq, hqx⟩ := List.mem_map.mp hx
          exact hqx ▸ List.mem_map.mpr ⟨q, (List.mem_filter.mp hq).1, rfl⟩
        exact key_filter_disjoint flows (fun p => flowExpired now p.2) hnd p.1 hsE hxR
      rw [h1, count_remove_map]
    constructor
    · rw [shutdownCount, hsndIf, List.count_append]
      by_cases htrim : 10 < (remainingFlows now flows).length
      · rw [if_pos htrim, hcntE, hcntEv]
      · rw [if_neg htrim, hcntE]
        simp
    · obtain ⟨l₁, l₂, hsplit⟩ := List.append_of_mem hsE
      have hev : expiryEvents now flows =
          (l₁.flatMap
            (fun x => _shutdown_flow_server flows x ++ [FlowEvent.removeFlow x]))
          ++ (FlowEvent.shutdownListener p.1 :: FlowEvent.removeFlow p.1 ::
              l₂.flatMap
                (fun x => _shutdown_flow_server flows x ++ [FlowEvent.removeFlow x])) := by
        rw [expiryEvents, hsplit, List.flatMap_append, List.flatMap_cons, hfs]
        simp
      rw [hsndIf, hev]
      apply closedBeforeRemoval_extend
      exact ⟨[], _, rfl, List.mem_cons_self _ _⟩
  · obtain ⟨p, hpEv, rfl⟩ := List.mem_map.mp hsEv
    have hpR : p ∈ remainingFlows now flows := (List.mem_filter.mp hpEv).1
    have hpf : p ∈ flows := (List.mem_filter.mp hpR).1
    have hlookR : (remainingFlows now flows).lookup p.1 = some p.2 :=
      lookup_of_mem_nodup _ p.1 p.2 hndR (by simpa using hpR)
    have hserv : p.2.has_server = true := hsrv p hpf
    have hfs : _shutdown_flow_server (remainingFlows now flows) p.1 =
        [FlowEvent.shutdownListener p.1] := by
      simp [_shutdown_flow_server, hlookR, hserv]
    have hcntE0 : (expiryEvents now flows).count (FlowEvent.shutdownListener p.1) = 0 := by
      apply count_flatMap_zero
      intro x hx
      have hxs : x ≠ p.1 := by
        rintro rfl
        have hxR : p.1 ∈ (remainingFlows now flows).map Prod.fst :=
          List.mem_map.mpr ⟨p, hpR, rfl⟩
        exact key_filter_disjoint flows (fun p => flowExpired now p.2) hnd p.1 hx hxR
      simp [List.count_append, shutdown_server_count_ne flows x p.1 hxs,
        List.count_cons]
    have hcntEv1 : (evictionEvents now flows).count (FlowEvent.shutdownListener p.1) = 1 := by
      unfold evictionEvents
      rw [List.count_append]
      have h1 : ((evictedKeys now flows).flatMap
          (fun x => _shutdown_flow_server (remainingFlows now flows) x)).count
            (FlowEvent.shutdownListener p.1) = 1 := by
        apply count_flatMap_one _ _ _ p.1 hsEv hndEv
        · rw [hfs]
          simp [List.count_cons]
        · intro x hx hxs
          exact shutdown_server_count_ne _ x p.1 hxs
      rw [h1, count_remove_map]
    constructor
    · rw [shutdownCount, hsndIf, List.count_append, if_pos htrim, hcntE0, hcntEv1]
    · obtain ⟨e₁, e₂, hsplit⟩ := List.append_of_mem hsEv
      have hflat : (evictedKeys now flows).flatMap
          (fun x => _shutdown_flow_server (remainingFlows now flows) x) =
          e₁.flatMap (fun x => _shutdown_flow_server (remainingFlows now flows) x)
          ++ (FlowEvent.shutdownListener p.1 ::
              e₂.flatMap (fun x => _shutdown_flow_server (remainingFlows now flows) x)) := by
        rw [hsplit, List.flatMap_append, List.flatMap_cons, hfs]
        simp
      rw [hsndIf, if_pos htrim]
      unfold evictionEvents
      rw [hflat]
      refine ⟨expiryEvents now flows ++
          e₁.flatMap (fun x => _shutdown_flow_server (remainingFlows now flows) x),
        e₂.flatMap (fun x => _shutdown_flow_server (remainingFlows now flows) x)
          ++ (evictedKeys now flows).map FlowEvent.removeFlow, ?_, ?_⟩
      · simp [List.append_assoc]
      · exact List.mem_append_right _ (List.mem_map.mpr ⟨p.1, hsEv, rfl⟩)

theorem complete_destroyed_key_shutdown (flows : AuthFlows)
    (project_id user_session : Option String) (env : CompleteEnv)
    (hnd : (flows.map Prod.fst).Nodup)
    (hsrv : ∀ p ∈ flows, p.2.has_server = true) (s : String)
    (hin : s ∈ flows.map Prod.fst)
    (hout : s ∉ ((complete_auth_flow flows project_id user_session env).2.1.map Prod.fst)) :
    shutdownCount (complete_auth_flow flows project_id user_session env).2.2 s = 1 ∧
    closedBeforeRemoval (complete_auth_flow flows project_id user_session env).2.2 s := by
  cases hf : get_auth_flow flows project_id user_session with
  | none =>
    exfalso
    apply hout
    simpa [complete_auth_flow, hf] using hin
  | some x =>
    obtain ⟨state, d⟩ := x
    cases hc : completeCore d project_id env with
    | error r =>
      exfalso
      apply hout
      simpa [complete_auth_flow, hf, hc] using hin
    | ok v =>
      obtain ⟨f, pid, creds⟩ := v
      have hmem : (state, d) ∈ flows := get_auth_flow_mem _ _ _ _ hf
      have hse : s = state := by
        by_contra hne
        apply hout
        obtain ⟨p, hp, hps⟩ := List.mem_map.mp hin
        have hpfil : p ∈ flows.filter (fun q => q.1 != state) :=
          List.mem_filter.mpr ⟨hp, by simp [hps]; exact hne⟩
        simp only [complete_auth_flow, hf, hc]
        exact List.mem_map.mpr ⟨p, hpfil, hps⟩
      subst hse
      have hlook : flows.lookup s = some d := lookup_of_mem_nodup flows s d hnd hmem
      have hserv : d.has_server = true := hsrv (s, d) hmem
      have htr : (complete_auth_flow flows project_id user_session env).2.2 =
          [FlowEvent.shutdownListener s, FlowEvent.removeFlow s] := by
        simp [complete_auth_flow, hf, hc, _shutdown_flow_server, hlook, hserv]
      rw [htr]
      refine ⟨by simp [shutdownCount, List.count_cons], ?_⟩
      exact ⟨[], [FlowEvent.removeFlow s], rfl, by simp⟩

/-- C5: every flow record holds at most one listener handle, and on each path
that destroys a flow record — expiry cleanup, hard-cap eviction, and
successful completion — the record's listener is shut down exactly once, and
the shutdown event precedes the record's removal in the operation's event
trace; no destruction path removes a record while leaving its listener
running. -/
theorem flow_destruction_shutdown_ordering (now : Nat) (flows : AuthFlows)
    (hnd : (flows.map Prod.fst).Nodup)
    (hsrv : ∀ p ∈ flows, p.2.has_server = true) :
    (∀ s, s ∈ flows.map Prod.fst →
      s ∉ (cleanup_auth_flows now flows).1.map Prod.fst →
      shutdownCount (cleanup_auth_flows now flows).2 s = 1 ∧
      closedBeforeRemoval (cleanup_auth_flows now flows).2 s) ∧
    (∀ project_id user_session env s, s ∈ flows.map Prod.fst →
      s ∉ ((complete_auth_flow flows project_id user_session env).2.1.map Prod.fst) →
      shutdownCount (complete_auth_flow flows project_id user_session env).2.2 s = 1 ∧
      closedBeforeRemoval (complete_auth_flow flows project_id user_session env).2.2 s) :=
  ⟨fun s hin hout => cleanup_destroyed_key_shutdown now flows hnd hsrv s hin hout,
   fun project_id user_session env s hin hout =>
     complete_destroyed_key_shutdown flows project_id user_session env hnd hsrv s
       hin hout⟩

/-- Witness for C5: a flow destroyed by expiry cleanup and one destroyed by a
successful completion each have their listener shut down exactly once. -/
theorem flow_destruction_shutdown_ordering_witness :
    shutdownCount (cleanup_auth_flows 2000
      [("old", (⟨none, none, 8080, true, none, false, 0, true, false⟩ : FlowRecord))]).2
      "old" = 1 ∧
    shutdownCount (complete_auth_flow
      [("st", (⟨none, none, 8080, true, some "c", false, 0, true, false⟩ : FlowRecord))]
      none none
      { codeAt := fun _ => none, exchange := fun _ => .ok ⟨"tok"⟩,
        userProjects := [⟨some "proj1"⟩], selectDefault := none,
        enableResult := .ok (), saveResult := .ok "p.json" }).2.2 "st" = 1 := by
  constructor
  · exact ((flow_destruction_shutdown_ordering 2000
      [("old", ⟨none, none, 8080, true, none, false, 0, true, false⟩)]
      (by decide) (by decide)).1 "old" (by decide) (by decide)).1
  · exact ((flow_destruction_shutdown_ordering 0
      [("st", ⟨none, none, 8080, true, some "c", false, 0, true, false⟩)]
      (by decide) (by decide)).2 none none
      { codeAt := fun _ => none, exchange := fun _ => .ok ⟨"tok"⟩,
        userProjects := [⟨some "proj1"⟩], selectDefault := none,
        enableResult := .ok (), saveResult := .ok "p.json" }
      "st" (by decide) (by decide)).1

end Gcli2Api
